import Mathlib

/-!
Verification of the zn-js-captcha generation engine (src/index.js).

The development shallowly embeds the engine in Lean:
* decimal digit strings are lists of `Fin 10` (most significant digit first);
* the number speller `spellNumber` and its while loop `spellLoop` follow
  src/index.js lines 302-383;
* random sampling `getRandomInt` models `Math.round(min + Math.random() * (max - min))`
  with the random draw passed explicitly as a rational in `[0, 1)`
  (JavaScript `Math.round x` is `Int.floor (x + 1/2)`, round half up);
* noise, glyph and document construction follow lines 108-289, with the
  random stream and the order-randomizing shuffle passed in explicitly.

Note on the zero special case of the source (lines 305-308): the source tests
`0 === num` where `num` is the result of `.toString()`, a string.  JavaScript
strict equality between the number `0` and the string "0" is always false, so
that branch is unreachable and `spellNumber(0)` falls through to the loop,
which produces the empty string.  The embedding therefore has no zero branch;
the theorems below record the consequences.
-/

/-- A decimal digit, as produced by `.toString()` on a natural number. -/
abbrev Digit := Fin 10

/-- Decimal digits of a natural number, most significant first; `natDigits 0 = [0]`.
Models `parseInt(number || 0).toString()` (src/index.js line 303). -/
def natDigits (n : ℕ) : List Digit :=
  if h : n < 10 then [⟨n, h⟩]
  else natDigits (n / 10) ++ [⟨n % 10, Nat.mod_lt _ (by norm_num)⟩]
decreasing_by exact Nat.div_lt_self (by omega) (by norm_num)

/-- The ones table (src/index.js line 314). -/
def onesWords : List String :=
  ["", "one", "two", "three", "four", "five", "six", "seven", "eight", "nine"]

/-- The teens table (src/index.js lines 315-318). -/
def teensWords : List String :=
  ["ten", "eleven", "twelve", "thirteen", "fourteen", "fifteen",
   "sixteen", "seventeen", "eighteen", "nineteen"]

/-- The tens table (src/index.js line 319). -/
def tensWords : List String :=
  ["", "", "twenty", "thirty", "forty", "fifty", "sixty", "seventy", "eighty", "ninety"]

/-- The place suffix table (src/index.js lines 311-313); index 0 unused. -/
def placeWords : List String :=
  ["", "", "", " hundred", " thousand", " thousand", " thousand",
   " million", " million", " million"]

/-- Leading-zero stripping (src/index.js lines 366-370). -/
def stripZeros (l : List Digit) : List Digit :=
  l.dropWhile (fun d => d = 0)

/-- Concatenation of a new part onto the running answer
(src/index.js lines 372-379); `remaining` is the digit string left after the
current iteration, already stripped of leading zeros. -/
def joinPart (ans partAns : String) (remaining : List Digit) : String :=
  if ans = "" then ans ++ partAns
  else if remaining.length > 0 then ans ++ ", " ++ partAns
  else ans ++ " and " ++ partAns

/-- The `while (num.length > 0)` loop of `spellNumber`
(src/index.js lines 328-380), with the digit string and the accumulated answer
as explicit state.  The recursive call on the next two digits at a
hundred-multiplier place (line 336, `spellNumber(parseInt(num.substr(1, 2)))`)
is inlined as `spellLoop (natDigits _) ""`, which is exactly `spellNumber` of
that two-digit value.  The final branch (ten or more remaining digits) is
where the source loops forever, as no branch consumes digits; the embedding
returns the accumulated answer there, and every claim below stays within nine
digits. -/
def spellLoop : List Digit → String → String
  | [], ans => ans
  | digit :: rest, ans =>
    if h69 : rest.length + 1 = 6 ∨ rest.length + 1 = 9 then
      -- 100 thousand, 100 million (lines 334-342)
      let nextTwoDigits :=
        spellLoop (natDigits (10 * (rest.getD 0 0).val + (rest.getD 1 0).val)) ""
      let pre := (onesWords.getD digit.val "") ++ " hundred"
      let pre2 := if nextTwoDigits ≠ "zero" then pre ++ " and " ++ nextTwoDigits else pre
      let partAns := pre2 ++ placeWords.getD (rest.length + 1) ""
      let num2 := stripZeros (rest.drop 2)
      spellLoop num2 (joinPart ans partAns num2)
    else if rest.length + 1 = 2 ∨ rest.length + 1 = 5 ∨ rest.length + 1 = 8 then
      -- 10, 10 thousand, 10 million (lines 343-358)
      let nextDigit := (rest.getD 0 0).val
      let pre :=
        if digit.val = 1 then teensWords.getD nextDigit ""
        else if digit.val > 1 then
          (if nextDigit ≠ 0 then
            tensWords.getD digit.val "" ++ "-" ++ onesWords.getD nextDigit ""
          else tensWords.getD digit.val "")
        else ""
      let partAns := pre ++ placeWords.getD (rest.length + 1) ""
      let num2 := stripZeros (rest.drop 1)
      spellLoop num2 (joinPart ans partAns num2)
    else if rest.length + 1 = 1 ∨ rest.length + 1 = 3 ∨ rest.length + 1 = 4 ∨
        rest.length + 1 = 7 then
      -- 1, 1 hundred, 1 thousand, 1 million (lines 359-363)
      let partAns := (onesWords.getD digit.val "") ++ placeWords.getD (rest.length + 1) ""
      let num2 := stripZeros rest
      spellLoop num2 (joinPart ans partAns num2)
    else
      ans
termination_by num _ => num.length
decreasing_by
  · have hlen : (natDigits (10 * (rest.getD 0 0).val + (rest.getD 1 0).val)).length ≤ 2 := by
      have ha : (rest.getD 0 0).val ≤ 9 := Nat.lt_succ_iff.mp (rest.getD 0 0).isLt
      have hb : (rest.getD 1 0).val ≤ 9 := Nat.lt_succ_iff.mp (rest.getD 1 0).isLt
      have harg : 10 * (rest.getD 0 0).val + (rest.getD 1 0).val < 100 := by omega
      have : ∀ m, m < 100 → (natDigits m).length ≤ 2 := by
        intro m hm
        rw [natDigits]
        split
        · simp
        · rw [natDigits]
          have : m / 10 < 10 := by omega
          simp [this]
      exact this _ harg
    simp only [List.length_cons]
    omega
  · have h1 : (stripZeros (rest.drop 2)).length ≤ (rest.drop 2).length :=
      List.Sublist.length_le (List.dropWhile_sublist _)
    have h2 : (rest.drop 2).length ≤ rest.length := by
      simp [List.length_drop]
    simp only [List.length_cons]
    omega
  · have h1 : (stripZeros (rest.drop 1)).length ≤ (rest.drop 1).length :=
      List.Sublist.length_le (List.dropWhile_sublist _)
    have h2 : (rest.drop 1).length ≤ rest.length := by
      simp [List.length_drop]
    simp only [List.length_cons]
    omega
  · have h1 : (stripZeros rest).length ≤ rest.length :=
      List.Sublist.length_le (List.dropWhile_sublist _)
    simp only [List.length_cons]
    omega

/-- `spellNumber` (src/index.js lines 302-383).  The dead zero special case
(see the file header) is omitted because it never executes. -/
def spellNumber (n : ℕ) : String :=
  spellLoop (natDigits n) ""

/-- Configuration with the default values of src/index.js lines 68-93. -/
structure Config where
  colorBackground : String := "#ffffff"
  colorForeground : String := "#000000"
  fontPath : String := "../assets/Marius1.ttf"
  fontSize : ℚ := 50
  mathAugendMin : ℤ := 10
  mathAugendMax : ℤ := 99
  mathAddendMin : ℤ := 1
  mathAddendMax : ℤ := 9
  mathOperator : String := "+"
  noiseLines : ℕ := 10
  noiseDots : ℕ := 1000
  outputWidth : ℤ := 480
  outputHeight : ℤ := 120

/-- `getRandomInt(min, max)` (src/index.js lines 177-179):
`Math.round(min + Math.random() * (max - min))`, with the draw of
`Math.random()` passed in as `r`; `Math.round x` is `Int.floor (x + 1/2)`. -/
def getRandomInt (lo hi r : ℚ) : ℤ :=
  Int.floor (lo + r * (hi - lo) + 1 / 2)

/-- The spelled operand of the equation text.  The source passes the sampled
number straight to `spellNumber` (line 149); digit-string decomposition is
meaningful for non-negative values, which is what every configured range in
the claims produces, so the embedding truncates at zero. -/
def spellInt (i : ℤ) : String :=
  spellNumber i.toNat

/-- Result of `generateMathEquation` (src/index.js lines 144-155). -/
structure Equation where
  text : String
  result : ℤ

/-- `generateMathEquation` (src/index.js lines 144-155); `r1` and `r2` are the
two `Math.random()` draws consumed by the augend and addend samples. -/
def generateMathEquation (cfg : Config) (r1 r2 : ℚ) : Equation :=
  let augend := getRandomInt (cfg.mathAugendMin : ℚ) (cfg.mathAugendMax : ℚ) r1
  let addend := getRandomInt (cfg.mathAddendMin : ℚ) (cfg.mathAddendMax : ℚ) r2
  { text := spellInt augend ++ (if cfg.mathOperator = "-" then " minus " else " plus ")
      ++ spellInt addend
    result := if cfg.mathOperator = "-" then augend - addend else augend + addend }

/-- One hexadecimal digit character, as produced by `.toString(16)` on a
small non-negative integer. -/
def hexChar (n : ℤ) : Char :=
  if n < 10 then Char.ofNat (48 + n.toNat) else Char.ofNat (87 + n.toNat)

/-- `getRandomGray` (src/index.js lines 163-167): a hex digit sampled in
`[1, 8]` and repeated three times after a hash. -/
def getRandomGray (r : ℚ) : String :=
  let s := String.mk [hexChar (getRandomInt 1 8 r)]
  "#" ++ s ++ s ++ s

/-- One visual primitive of the output document: a noise dot (circle), a
noise line (cubic curve through start, two control points, end), a glyph
path, or the background rectangle. -/
inductive Prim where
  | circle (cx cy : ℤ) (fill : String)
  | curve (sx sy ex ey m1x m1y m2x m2y : ℤ) (stroke : String)
  | glyphPath (fill : String) (d : String)
  | bgRect (w h : String) (fill : String)
deriving DecidableEq

/-- Recognizer for noise dots. -/
def isCircle : Prim → Bool
  | .circle _ _ _ => true
  | _ => false

/-- Recognizer for noise lines. -/
def isCurve : Prim → Bool
  | .curve _ _ _ _ _ _ _ _ _ => true
  | _ => false

/-- Recognizer for glyph paths. -/
def isGlyphPath : Prim → Bool
  | .glyphPath _ _ => true
  | _ => false

/-- Recognizer for the background rectangle. -/
def isBgRect : Prim → Bool
  | .bgRect _ _ _ => true
  | _ => false

/-- `renderDots` (src/index.js lines 187-207).  Iteration `i` of the while
loop consumes three `Math.random()` draws, `rnd (3 * i)` through
`rnd (3 * i + 2)`, in source order: x, y, gray shade. -/
def renderDots (cfg : Config) (rnd : ℕ → ℚ) : List Prim :=
  (List.range cfg.noiseDots).map fun i =>
    Prim.circle
      (getRandomInt 1 (cfg.outputWidth : ℚ) (rnd (3 * i)))
      (getRandomInt 1 (cfg.outputHeight : ℚ) (rnd (3 * i + 1)))
      (getRandomGray (rnd (3 * i + 2)))

/-- `renderLines` (src/index.js lines 215-240).  Iteration `i` consumes nine
draws in source order: start x, start y, end x, end y, first control x and y,
second control x and y, gray shade; `buffer` is 20. -/
def renderLines (cfg : Config) (rnd : ℕ → ℚ) : List Prim :=
  let w : ℚ := (cfg.outputWidth : ℚ)
  let h : ℚ := (cfg.outputHeight : ℚ)
  let buffer : ℚ := 20
  (List.range cfg.noiseLines).map fun i =>
    Prim.curve
      (getRandomInt 1 buffer (rnd (9 * i)))
      (getRandomInt 1 h (rnd (9 * i + 1)))
      (getRandomInt (w - buffer) w (rnd (9 * i + 2)))
      (getRandomInt 1 h (rnd (9 * i + 3)))
      (getRandomInt (w / 2 - buffer) (w / 2 + buffer) (rnd (9 * i + 4)))
      (getRandomInt 1 h (rnd (9 * i + 5)))
      (getRandomInt (w / 2 - buffer) (w / 2 + buffer) (rnd (9 * i + 6)))
      (getRandomInt 1 h (rnd (9 * i + 7)))
      (getRandomGray (rnd (9 * i + 8)))

/-- A glyph as delivered by the font service (opentype.js).  `advanceWidth`
is `none` when the font has no advance for the character (the falsy case of
line 273); `getPath` abstracts `glyph.getPath(x, y, fontSize).toPathData()`. -/
structure Glyph where
  advanceWidth : Option ℚ
  getPath : ℚ → ℚ → ℚ → String

/-- A loaded font with the metrics the renderer reads (lines 258, 271-281). -/
structure Font where
  unitsPerEm : ℚ
  ascender : ℚ
  descender : ℚ
  charToGlyph : Char → Glyph

/-- The body of the `while (i < len)` loop of `renderText`
(src/index.js lines 270-286) for slot `i` holding character `c`, with `len`
the full text length. -/
def renderChar (cfg : Config) (font : Font) (len i : ℕ) (c : Char) : Prim :=
  let spacing : ℚ := ((cfg.outputWidth : ℚ) - 2) / ((len : ℚ) + 1)
  let fontScale : ℚ := cfg.fontSize / font.unitsPerEm
  let glyph := font.charToGlyph c
  let glyphWidth : ℚ :=
    match glyph.advanceWidth with
    | some w => fontScale * w
    | none => 0
  let x : ℚ := ((i : ℚ) + 1) * spacing
  let left : ℚ := x - glyphWidth / 2
  let glyphHeight : ℚ := fontScale * (font.ascender + font.descender)
  let y : ℚ := (cfg.outputHeight : ℚ) / 2
  let top : ℚ := y + glyphHeight / 2
  Prim.glyphPath cfg.colorForeground (glyph.getPath left top cfg.fontSize)

/-- `renderText` (src/index.js lines 249-289): one glyph path per character
of the text, positioned by slot index. -/
def renderText (cfg : Config) (font : Font) (text : String) : List Prim :=
  (List.range text.length).map fun i =>
    renderChar cfg font text.length i (text.data.getD i ' ')

/-- The output vector document: dimensions of the `svg` element and its
child primitives in document order. -/
structure SvgDoc where
  width : ℤ
  height : ℤ
  prims : List Prim

/-- `generate` (src/index.js lines 108-132) for an already loaded font.
`rndD` and `rndL` are the random streams consumed by the dot and line noise,
`r1 r2` the equation draws, and `shuffle` the permutation realized by
`.sort(() => Math.random() - 0.5)` on line 124 (an ECMAScript sort always
returns a rearrangement of its input).  The document is the background
rectangle, sized `100%` by `100%` of the canvas and filled with the
configured background color (line 117), followed by the shuffled dot, line
and glyph primitives; the second component is the equation result. -/
def generate (cfg : Config) (font : Font) (rndD rndL : ℕ → ℚ) (r1 r2 : ℚ)
    (shuffle : List Prim → List Prim) : SvgDoc × ℤ :=
  let equation := generateMathEquation cfg r1 r2
  let paths := shuffle
    (renderDots cfg rndD ++ renderLines cfg rndL ++ renderText cfg font equation.text)
  ({ width := cfg.outputWidth
     height := cfg.outputHeight
     prims := Prim.bgRect "100%" "100%" cfg.colorBackground :: paths },
   equation.result)

/-- The per-call inputs of one `generate()` invocation: the random streams
and the realized shuffle. -/
structure CallRand where
  rndD : ℕ → ℚ
  rndL : ℕ → ℚ
  r1 : ℚ
  r2 : ℚ
  shuffle : List Prim → List Prim

/-- One `generate()` call of the engine (src/index.js lines 108-111): when
the `font` closure variable is still null the font service is invoked
(`loaded` is the font it returns) and the result cached; otherwise the cached
font is reused.  The boolean records whether the load ran; rendering always
receives the non-null font. -/
def engineStep (cfg : Config) (loaded : Font) (cache : Option Font) (cr : CallRand) :
    Option Font × Bool × (SvgDoc × ℤ) :=
  match cache with
  | none => (some loaded, true, generate cfg loaded cr.rndD cr.rndL cr.r1 cr.r2 cr.shuffle)
  | some f => (some f, false, generate cfg f cr.rndD cr.rndL cr.r1 cr.r2 cr.shuffle)

/-- A sequence of `n` successful `generate()` calls on one engine instance,
starting from the initial `font = null` state (line 96); returns the final
cache state, the per-call load flags, and the per-call outputs, in call
order. -/
def runEngine (cfg : Config) (loaded : Font) (crs : ℕ → CallRand) : ℕ →
    Option Font × List Bool × List (SvgDoc × ℤ)
  | 0 => (none, [], [])
  | n + 1 =>
    let s := runEngine cfg loaded crs n
    let step := engineStep cfg loaded s.1 (crs n)
    (step.1, s.2.1 ++ [step.2.1], s.2.2 ++ [step.2.2])

/-- Shorthand gray color of the form `#hhh` with hex digit between 1 and 8,
as the spec describes the noise colors. -/
def grayShape (s : String) : Prop :=
  ∃ ch : Char, s = String.mk ['#', ch, ch, ch] ∧ '1' ≤ ch ∧ ch ≤ '8'

/-- Default configuration, used by concrete witnesses. -/
def cfgW : Config := {}

/-- Configuration with an unrecognized operator, used by concrete witnesses. -/
def cfgStar : Config := { mathOperator := "*" }

/-- Configuration with small noise counts, used by concrete witnesses. -/
def cfgSmall : Config := { noiseDots := 2, noiseLines := 1 }

/-- A concrete font whose glyphs all lack an advance width, used by concrete
witnesses. -/
def fontW : Font :=
  { unitsPerEm := 1000
    ascender := 800
    descender := 200
    charToGlyph := fun _ => { advanceWidth := none, getPath := fun _ _ _ => "" } }

/-- Concrete per-call inputs (constant draw 1/2, identity shuffle), used by
concrete witnesses. -/
def crsW : ℕ → CallRand :=
  fun _ => { rndD := fun _ => 1 / 2, rndL := fun _ => 1 / 2, r1 := 1 / 2, r2 := 1 / 2
             shuffle := id }

/-! ## Helper lemmas -/

/-- Values of the ten digit literals, used to let `simp` evaluate the
speller on concrete inputs. -/
theorem digitVals :
    ((0 : Fin 10)).val = 0 ∧ ((1 : Fin 10)).val = 1 ∧ ((2 : Fin 10)).val = 2 ∧
    ((3 : Fin 10)).val = 3 ∧ ((4 : Fin 10)).val = 4 ∧ ((5 : Fin 10)).val = 5 ∧
    ((6 : Fin 10)).val = 6 ∧ ((7 : Fin 10)).val = 7 ∧ ((8 : Fin 10)).val = 8 ∧
    ((9 : Fin 10)).val = 9 := by decide

/-- Stripping leading zeros never lengthens a digit string. -/
theorem stripZeros_length_le (l : List Digit) : (stripZeros l).length ≤ l.length :=
  List.Sublist.length_le (List.dropWhile_sublist _)

/-! ## Claims about the number speller -/

/-- C1: the claim says that spellNumber is non-empty on all of
`[0, 999999999]` and that `spellNumber 0` is exactly "zero".  The code
disagrees at the input 0: the zero special case of the source compares the
number `0` with a string and never fires, so `spellNumber 0` is the empty
string.  This theorem evaluates the code at that failing input. -/
theorem spellNumber_zero_is_empty : spellNumber 0 = "" := by
  simp [spellNumber, spellLoop, natDigits, stripZeros, joinPart, onesWords, teensWords,
    tensWords, placeWords, digitVals]

/-- C2: the claim says the two-digit remainder after a hundred-multiplier
digit is omitted when it is zero.  In the code the omission test
of `nextTwoDigits` against the word zero never fires, because the spelling of zero is the
empty string (see C1), so a zero remainder is joined as a dangling
" and " followed by the empty remainder.  This theorem evaluates the code at
the failing input 100000: the result has a dangling "and" and a double
space, instead of "one hundred thousand". -/
theorem spellNumber_hundred_thousand : spellNumber 100000 = "one hundred and  thousand" := by
  simp [spellNumber, spellLoop, natDigits, stripZeros, joinPart, onesWords, teensWords,
    tensWords, placeWords, digitVals]

/-- C3: the five concrete spellings of the spec hold on the code:
19, 100, 105, 1000 and 264073458. -/
theorem spellNumber_examples :
    spellNumber 19 = "nineteen" ∧
    spellNumber 100 = "one hundred" ∧
    spellNumber 105 = "one hundred and five" ∧
    spellNumber 1000 = "one thousand" ∧
    spellNumber 264073458 =
      "two hundred and sixty-four million, seventy-three thousand, four hundred and fifty-eight" := by
  refine ⟨?_, ?_, ?_, ?_, ?_⟩ <;>
    simp [spellNumber, spellLoop, natDigits, stripZeros, joinPart, onesWords, teensWords,
      tensWords, placeWords, digitVals]

/-- C10: every iteration of the spelling loop on a non-empty digit string of
at most nine digits recurses on a strictly shorter digit string (the branch
cuts one, two or three leading digits and then strips leading zeros), so the
loop terminates. -/
theorem spellLoop_shrinks (num : List Digit) (ans : String) (hne : num ≠ [])
    (hlen : num.length ≤ 9) :
    ∃ partAns rest2, rest2.length < num.length ∧
      spellLoop num ans = spellLoop rest2 (joinPart ans partAns rest2) := by
  match num, hne with
  | digit :: rest, _ =>
    simp only [List.length_cons] at hlen ⊢
    by_cases h69 : rest.length + 1 = 6 ∨ rest.length + 1 = 9
    · refine ⟨(if spellLoop (natDigits (10 * (rest.getD 0 0).val + (rest.getD 1 0).val)) ""
            ≠ "zero" then
          ((onesWords.getD digit.val "") ++ " hundred") ++ " and " ++
            spellLoop (natDigits (10 * (rest.getD 0 0).val + (rest.getD 1 0).val)) ""
        else (onesWords.getD digit.val "") ++ " hundred") ++
          placeWords.getD (rest.length + 1) "",
        stripZeros (rest.drop 2), ?_, ?_⟩
      · have := stripZeros_length_le (rest.drop 2)
        simp only [List.length_drop] at this
        omega
      · rw [spellLoop]
        rw [dif_pos h69]
    · by_cases h258 : rest.length + 1 = 2 ∨ rest.length + 1 = 5 ∨ rest.length + 1 = 8
      · refine ⟨(if digit.val = 1 then teensWords.getD (rest.getD 0 0).val ""
            else if digit.val > 1 then
              (if (rest.getD 0 0).val ≠ 0 then
                tensWords.getD digit.val "" ++ "-" ++ onesWords.getD (rest.getD 0 0).val ""
              else tensWords.getD digit.val "")
            else "") ++ placeWords.getD (rest.length + 1) "",
          stripZeros (rest.drop 1), ?_, ?_⟩
        · have := stripZeros_length_le (rest.drop 1)
          simp only [List.length_drop] at this
          omega
        · rw [spellLoop]
          rw [dif_neg h69, if_pos h258]
      · have h1347 : rest.length + 1 = 1 ∨ rest.length + 1 = 3 ∨ rest.length + 1 = 4 ∨
            rest.length + 1 = 7 := by omega
        refine ⟨(onesWords.getD digit.val "") ++ placeWords.getD (rest.length + 1) "",
          stripZeros rest, ?_, ?_⟩
        · have := stripZeros_length_le rest
          omega
        · rw [spellLoop]
          rw [dif_neg h69, if_neg (by omega), if_pos h1347]

/-- Concrete instance of C10 at the digit string of 1005. -/
theorem spellLoop_shrinks_witness :
    ∃ partAns rest2, rest2.length < ([1, 0, 0, 5] : List Digit).length ∧
      spellLoop [1, 0, 0, 5] "" = spellLoop rest2 (joinPart "" partAns rest2) :=
  spellLoop_shrinks [1, 0, 0, 5] "" (by decide) (by decide)

/-! ## Claims about the equation generator -/

/-- For integer endpoints `lo ≤ hi` and a draw in `[0, 1)`, the sampled
integer lies in `[lo, hi]`, both ends inclusive. -/
theorem getRandomInt_int_mem (lo hi : ℤ) (r : ℚ) (hle : lo ≤ hi) (h0 : 0 ≤ r)
    (h1 : r < 1) :
    lo ≤ getRandomInt (lo : ℚ) (hi : ℚ) r ∧ getRandomInt (lo : ℚ) (hi : ℚ) r ≤ hi := by
  have hd : (0 : ℚ) ≤ (hi : ℚ) - (lo : ℚ) := by
    have : (lo : ℚ) ≤ (hi : ℚ) := by exact_mod_cast hle
    linarith
  have hvlo : (lo : ℚ) ≤ (lo : ℚ) + r * ((hi : ℚ) - (lo : ℚ)) := by
    have := mul_nonneg h0 hd
    linarith
  have hvhi : (lo : ℚ) + r * ((hi : ℚ) - (lo : ℚ)) ≤ (hi : ℚ) := by
    have := mul_le_mul_of_nonneg_right (le_of_lt h1) hd
    linarith
  constructor
  · exact Int.le_floor.mpr (by linarith)
  · have hlt : (lo : ℚ) + r * ((hi : ℚ) - (lo : ℚ)) + 1 / 2 < ((hi + 1 : ℤ) : ℚ) := by
      push_cast
      linarith
    have := Int.floor_lt.mpr hlt
    unfold getRandomInt
    omega

/-- C4: the equation result is augend plus addend when the operator is "+",
augend minus addend when it is "-", and augend plus addend for every other
operator string (an unrecognized operator silently defaults to addition). -/
theorem equation_result_operator (cfg : Config) (r1 r2 : ℚ) :
    (cfg.mathOperator = "+" → (generateMathEquation cfg r1 r2).result =
      getRandomInt (cfg.mathAugendMin : ℚ) (cfg.mathAugendMax : ℚ) r1 +
      getRandomInt (cfg.mathAddendMin : ℚ) (cfg.mathAddendMax : ℚ) r2) ∧
    (cfg.mathOperator = "-" → (generateMathEquation cfg r1 r2).result =
      getRandomInt (cfg.mathAugendMin : ℚ) (cfg.mathAugendMax : ℚ) r1 -
      getRandomInt (cfg.mathAddendMin : ℚ) (cfg.mathAddendMax : ℚ) r2) ∧
    (cfg.mathOperator ≠ "-" → (generateMathEquation cfg r1 r2).result =
      getRandomInt (cfg.mathAugendMin : ℚ) (cfg.mathAugendMax : ℚ) r1 +
      getRandomInt (cfg.mathAddendMin : ℚ) (cfg.mathAddendMax : ℚ) r2) := by
  refine ⟨fun h => ?_, fun h => ?_, fun h => ?_⟩ <;>
    simp [generateMathEquation, h]

/-- Concrete instance of C4: with the operator "*" the result is the sum of
the operands. -/
theorem equation_result_operator_witness :
    cfgStar.mathOperator ≠ "-" ∧
    (generateMathEquation cfgStar (1 / 2) (1 / 2)).result =
      getRandomInt (cfgStar.mathAugendMin : ℚ) (cfgStar.mathAugendMax : ℚ) (1 / 2) +
      getRandomInt (cfgStar.mathAddendMin : ℚ) (cfgStar.mathAddendMax : ℚ) (1 / 2) :=
  ⟨by decide, (equation_result_operator cfgStar (1 / 2) (1 / 2)).2.2 (by decide)⟩

/-- C5: for ranges with min at most max and draws in `[0, 1)`, the sampled
augend and addend lie in their configured ranges, both ends inclusive, and
the sample follows the round-half-up rule `floor (min + r * (max - min) + 1/2)`
(so the midpoint draws at 0.5 round up, not to even). -/
theorem equation_operands_in_range (cfg : Config) (r1 r2 : ℚ)
    (ha : cfg.mathAugendMin ≤ cfg.mathAugendMax)
    (hb : cfg.mathAddendMin ≤ cfg.mathAddendMax)
    (h10 : 0 ≤ r1) (h11 : r1 < 1) (h20 : 0 ≤ r2) (h21 : r2 < 1) :
    (cfg.mathAugendMin ≤ getRandomInt (cfg.mathAugendMin : ℚ) (cfg.mathAugendMax : ℚ) r1 ∧
      getRandomInt (cfg.mathAugendMin : ℚ) (cfg.mathAugendMax : ℚ) r1 ≤ cfg.mathAugendMax) ∧
    (cfg.mathAddendMin ≤ getRandomInt (cfg.mathAddendMin : ℚ) (cfg.mathAddendMax : ℚ) r2 ∧
      getRandomInt (cfg.mathAddendMin : ℚ) (cfg.mathAddendMax : ℚ) r2 ≤ cfg.mathAddendMax) ∧
    getRandomInt (cfg.mathAugendMin : ℚ) (cfg.mathAugendMax : ℚ) r1 =
      Int.floor ((cfg.mathAugendMin : ℚ) + r1 * ((cfg.mathAugendMax : ℚ) - (cfg.mathAugendMin : ℚ)) + 1 / 2) ∧
    getRandomInt 0 1 (1 / 2) = 1 ∧
    getRandomInt 0 5 (1 / 2) = 3 := by
  refine ⟨getRandomInt_int_mem _ _ _ ha h10 h11, getRandomInt_int_mem _ _ _ hb h20 h21,
    rfl, ?_, ?_⟩
  · unfold getRandomInt
    norm_num
  · unfold getRandomInt
    norm_num

/-- Concrete instance of C5 at the default configuration with both draws at
one half. -/
theorem equation_operands_in_range_witness :
    (cfgW.mathAugendMin ≤ getRandomInt (cfgW.mathAugendMin : ℚ) (cfgW.mathAugendMax : ℚ) (1 / 2) ∧
      getRandomInt (cfgW.mathAugendMin : ℚ) (cfgW.mathAugendMax : ℚ) (1 / 2) ≤ cfgW.mathAugendMax) ∧
    (cfgW.mathAddendMin ≤ getRandomInt (cfgW.mathAddendMin : ℚ) (cfgW.mathAddendMax : ℚ) (1 / 2) ∧
      getRandomInt (cfgW.mathAddendMin : ℚ) (cfgW.mathAddendMax : ℚ) (1 / 2) ≤ cfgW.mathAddendMax) ∧
    getRandomInt (cfgW.mathAugendMin : ℚ) (cfgW.mathAugendMax : ℚ) (1 / 2) =
      Int.floor ((cfgW.mathAugendMin : ℚ) + (1 / 2 : ℚ) * ((cfgW.mathAugendMax : ℚ) - (cfgW.mathAugendMin : ℚ)) + 1 / 2) ∧
    getRandomInt 0 1 (1 / 2) = 1 ∧
    getRandomInt 0 5 (1 / 2) = 3 :=
  equation_operands_in_range cfgW (1 / 2) (1 / 2) (by decide) (by decide)
    (by norm_num) (by norm_num) (by norm_num) (by norm_num)

/-! ## Claims about the noise synthesizer -/

/-- A sampled control-point x coordinate stays within 20 of half the canvas
width, for any integer width and draw in `[0, 1)`. -/
theorem getRandomInt_mid_bound (w : ℤ) (r : ℚ) (h0 : 0 ≤ r) (h1 : r < 1) :
    |((getRandomInt ((w : ℚ) / 2 - 20) ((w : ℚ) / 2 + 20) r : ℤ) : ℚ) - (w : ℚ) / 2| ≤ 20 := by
  set x : ℤ := getRandomInt ((w : ℚ) / 2 - 20) ((w : ℚ) / 2 + 20) r with hx
  have hlo : ((w : ℚ) / 2 - 20) + r * (((w : ℚ) / 2 + 20) - ((w : ℚ) / 2 - 20)) + 1 / 2 ≥
      (w : ℚ) / 2 - 20 + 1 / 2 := by
    have : (0 : ℚ) ≤ r * 40 := mul_nonneg h0 (by norm_num)
    ring_nf
    ring_nf at this
    linarith
  have hhi : ((w : ℚ) / 2 - 20) + r * (((w : ℚ) / 2 + 20) - ((w : ℚ) / 2 - 20)) + 1 / 2 <
      (w : ℚ) / 2 + 20 + 1 / 2 := by
    have : r * 40 < 40 := by nlinarith
    ring_nf
    ring_nf at this
    linarith
  have hxle : (x : ℚ) ≤ ((w : ℚ) / 2 - 20) + r * (((w : ℚ) / 2 + 20) - ((w : ℚ) / 2 - 20)) + 1 / 2 :=
    Int.floor_le _
  have hxgt : ((w : ℚ) / 2 - 20) + r * (((w : ℚ) / 2 + 20) - ((w : ℚ) / 2 - 20)) + 1 / 2 <
      (x : ℚ) + 1 := Int.lt_floor_add_one _
  have h2lo : (w : ℚ) - 41 < 2 * (x : ℚ) := by linarith
  have h2hi : 2 * (x : ℚ) < (w : ℚ) + 41 := by linarith
  have hzlo : w - 41 < 2 * x := by exact_mod_cast h2lo
  have hzhi : 2 * x < w + 41 := by exact_mod_cast h2hi
  have hzlo2 : w - 40 ≤ 2 * x := by omega
  have hzhi2 : 2 * x ≤ w + 40 := by omega
  rw [abs_le]
  constructor
  · have : ((w - 40 : ℤ) : ℚ) ≤ ((2 * x : ℤ) : ℚ) := by exact_mod_cast hzlo2
    push_cast at this
    linarith
  · have : ((2 * x : ℤ) : ℚ) ≤ ((w + 40 : ℤ) : ℚ) := by exact_mod_cast hzhi2
    push_cast at this
    linarith

/-- The sampled gray color is a shorthand `#hhh` gray with hex digit
between 1 and 8, for any draw in `[0, 1)`. -/
theorem getRandomGray_shape (r : ℚ) (h0 : 0 ≤ r) (h1 : r < 1) :
    grayShape (getRandomGray r) := by
  have hmem := getRandomInt_int_mem 1 8 r (by norm_num) h0 h1
  refine ⟨hexChar (getRandomInt 1 8 r), ?_, ?_, ?_⟩
  · have : ((1 : ℤ) : ℚ) = (1 : ℚ) := by norm_num
    rfl
  · rcases hmem with ⟨hlo, hhi⟩
    have hlo' : (1 : ℤ) ≤ getRandomInt 1 8 r := by exact_mod_cast hlo
    have hhi' : getRandomInt 1 8 r ≤ (8 : ℤ) := by exact_mod_cast hhi
    set d := getRandomInt 1 8 r with hd
    interval_cases d <;> decide
  · rcases hmem with ⟨hlo, hhi⟩
    have hlo' : (1 : ℤ) ≤ getRandomInt 1 8 r := by exact_mod_cast hlo
    have hhi' : getRandomInt 1 8 r ≤ (8 : ℤ) := by exact_mod_cast hhi
    set d := getRandomInt 1 8 r with hd
    interval_cases d <;> decide

/-- C8: every noise dot lies in `[1, width] × [1, height]`; every noise line
starts in `x ∈ [1, 20]`, ends in `x ∈ [width - 20, width]`, keeps both
control-point x coordinates within 20 of half the width, and keeps all four
y coordinates in `[1, height]`; and every noise color is a shorthand gray
`#hhh` with hex digit in `[1, 8]`. -/
theorem noise_in_bounds (cfg : Config) (rndD rndL : ℕ → ℚ)
    (hw : 1 ≤ cfg.outputWidth) (hh : 1 ≤ cfg.outputHeight)
    (hD : ∀ n, 0 ≤ rndD n ∧ rndD n < 1) (hL : ∀ n, 0 ≤ rndL n ∧ rndL n < 1) :
    (∀ p ∈ renderDots cfg rndD, ∃ x y c, p = Prim.circle x y c ∧
      1 ≤ x ∧ x ≤ cfg.outputWidth ∧ 1 ≤ y ∧ y ≤ cfg.outputHeight ∧ grayShape c) ∧
    (∀ p ∈ renderLines cfg rndL, ∃ sx sy ex ey m1x m1y m2x m2y c,
      p = Prim.curve sx sy ex ey m1x m1y m2x m2y c ∧
      1 ≤ sx ∧ sx ≤ 20 ∧
      cfg.outputWidth - 20 ≤ ex ∧ ex ≤ cfg.outputWidth ∧
      |(m1x : ℚ) - (cfg.outputWidth : ℚ) / 2| ≤ 20 ∧
      |(m2x : ℚ) - (cfg.outputWidth : ℚ) / 2| ≤ 20 ∧
      1 ≤ sy ∧ sy ≤ cfg.outputHeight ∧ 1 ≤ ey ∧ ey ≤ cfg.outputHeight ∧
      1 ≤ m1y ∧ m1y ≤ cfg.outputHeight ∧ 1 ≤ m2y ∧ m2y ≤ cfg.outputHeight ∧
      grayShape c) := by
  constructor
  · intro p hp
    simp only [renderDots, List.mem_map, List.mem_range] at hp
    obtain ⟨i, hi, rfl⟩ := hp
    refine ⟨_, _, _, rfl, ?_, ?_, ?_, ?_, ?_⟩
    · have := (getRandomInt_int_mem 1 cfg.outputWidth (rndD (3 * i)) hw
        (hD (3 * i)).1 (hD (3 * i)).2).1
      simpa using this
    · have := (getRandomInt_int_mem 1 cfg.outputWidth (rndD (3 * i)) hw
        (hD (3 * i)).1 (hD (3 * i)).2).2
      simpa using this
    · have := (getRandomInt_int_mem 1 cfg.outputHeight (rndD (3 * i + 1)) hh
        (hD (3 * i + 1)).1 (hD (3 * i + 1)).2).1
      simpa using this
    · have := (getRandomInt_int_mem 1 cfg.outputHeight (rndD (3 * i + 1)) hh
        (hD (3 * i + 1)).1 (hD (3 * i + 1)).2).2
      simpa using this
    · exact getRandomGray_shape _ (hD (3 * i + 2)).1 (hD (3 * i + 2)).2
  · intro p hp
    simp only [renderLines, List.mem_map, List.mem_range] at hp
    obtain ⟨i, hi, rfl⟩ := hp
    refine ⟨_, _, _, _, _, _, _, _, _, rfl, ?_, ?_, ?_, ?_, ?_, ?_, ?_, ?_, ?_, ?_, ?_, ?_, ?_, ?_, ?_⟩
    · have := (getRandomInt_int_mem 1 20 (rndL (9 * i)) (by norm_num)
        (hL (9 * i)).1 (hL (9 * i)).2).1
      simpa using this
    · have := (getRandomInt_int_mem 1 20 (rndL (9 * i)) (by norm_num)
        (hL (9 * i)).1 (hL (9 * i)).2).2
      simpa using this
    · have := (getRandomInt_int_mem (cfg.outputWidth - 20) cfg.outputWidth
        (rndL (9 * i + 2)) (by omega) (hL (9 * i + 2)).1 (hL (9 * i + 2)).2).1
      push_cast at this
      simpa using this
    · have := (getRandomInt_int_mem (cfg.outputWidth - 20) cfg.outputWidth
        (rndL (9 * i + 2)) (by omega) (hL (9 * i + 2)).1 (hL (9 * i + 2)).2).2
      push_cast at this
      simpa using this
    · exact getRandomInt_mid_bound cfg.outputWidth (rndL (9 * i + 4))
        (hL (9 * i + 4)).1 (hL (9 * i + 4)).2
    · exact getRandomInt_mid_bound cfg.outputWidth (rndL (9 * i + 6))
        (hL (9 * i + 6)).1 (hL (9 * i + 6)).2
    · have := (getRandomInt_int_mem 1 cfg.outputHeight (rndL (9 * i + 1)) hh
        (hL (9 * i + 1)).1 (hL (9 * i + 1)).2).1
      simpa using this
    · have := (getRandomInt_int_mem 1 cfg.outputHeight (rndL (9 * i + 1)) hh
        (hL (9 * i + 1)).1 (hL (9 * i + 1)).2).2
      simpa using this
    · have := (getRandomInt_int_mem 1 cfg.outputHeight (rndL (9 * i + 3)) hh
        (hL (9 * i + 3)).1 (hL (9 * i + 3)).2).1
      simpa using this
    · have := (getRandomInt_int_mem 1 cfg.outputHeight (rndL (9 * i + 3)) hh
        (hL (9 * i + 3)).1 (hL (9 * i + 3)).2).2
      simpa using this
    · have := (getRandomInt_int_mem 1 cfg.outputHeight (rndL (9 * i + 5)) hh
        (hL (9 * i + 5)).1 (hL (9 * i + 5)).2).1
      simpa using this
    · have := (getRandomInt_int_mem 1 cfg.outputHeight (rndL (9 * i + 5)) hh
        (hL (9 * i + 5)).1 (hL (9 * i + 5)).2).2
      simpa using this
    · have := (getRandomInt_int_mem 1 cfg.outputHeight (rndL (9 * i + 7)) hh
        (hL (9 * i + 7)).1 (hL (9 * i + 7)).2).1
      simpa using this
    · have := (getRandomInt_int_mem 1 cfg.outputHeight (rndL (9 * i + 7)) hh
        (hL (9 * i + 7)).1 (hL (9 * i + 7)).2).2
      simpa using this
    · exact getRandomGray_shape _ (hL (9 * i + 8)).1 (hL (9 * i + 8)).2

/-- Concrete instance of C8 at the default configuration with every draw at
one half. -/
theorem noise_in_bounds_witness :
    (∀ p ∈ renderDots cfgW (fun _ => 1 / 2), ∃ x y c, p = Prim.circle x y c ∧
      1 ≤ x ∧ x ≤ cfgW.outputWidth ∧ 1 ≤ y ∧ y ≤ cfgW.outputHeight ∧ grayShape c) ∧
    (∀ p ∈ renderLines cfgW (fun _ => 1 / 2), ∃ sx sy ex ey m1x m1y m2x m2y c,
      p = Prim.curve sx sy ex ey m1x m1y m2x m2y c ∧
      1 ≤ sx ∧ sx ≤ 20 ∧
      cfgW.outputWidth - 20 ≤ ex ∧ ex ≤ cfgW.outputWidth ∧
      |(m1x : ℚ) - (cfgW.outputWidth : ℚ) / 2| ≤ 20 ∧
      |(m2x : ℚ) - (cfgW.outputWidth : ℚ) / 2| ≤ 20 ∧
      1 ≤ sy ∧ sy ≤ cfgW.outputHeight ∧ 1 ≤ ey ∧ ey ≤ cfgW.outputHeight ∧
      1 ≤ m1y ∧ m1y ≤ cfgW.outputHeight ∧ 1 ≤ m2y ∧ m2y ≤ cfgW.outputHeight ∧
      grayShape c) :=
  noise_in_bounds cfgW (fun _ => 1 / 2) (fun _ => 1 / 2) (by decide) (by decide)
    (fun _ => ⟨by norm_num, by norm_num⟩) (fun _ => ⟨by norm_num, by norm_num⟩)

/-! ## Claims about the compositor -/

/-- Counting over a map where the predicate holds of every image. -/
theorem countP_map_eq_length {α β : Type} (p : β → Bool) (f : α → β) (l : List α)
    (h : ∀ a, p (f a) = true) : (l.map f).countP p = l.length := by
  induction l with
  | nil => simp
  | cons a t ih => simp [List.countP_cons, h, ih]

/-- Counting over a map where the predicate holds of no image. -/
theorem countP_map_eq_zero {α β : Type} (p : β → Bool) (f : α → β) (l : List α)
    (h : ∀ a, p (f a) = false) : (l.map f).countP p = 0 := by
  induction l with
  | nil => simp
  | cons a t ih => simp [List.countP_cons, h, ih]

/-- The dot noise consists of exactly `noiseDots` circles and nothing else. -/
theorem renderDots_counts (cfg : Config) (rnd : ℕ → ℚ) :
    (renderDots cfg rnd).countP isCircle = cfg.noiseDots ∧
    (renderDots cfg rnd).countP isCurve = 0 ∧
    (renderDots cfg rnd).countP isGlyphPath = 0 ∧
    (renderDots cfg rnd).countP isBgRect = 0 := by
  unfold renderDots
  refine ⟨?_, ?_, ?_, ?_⟩
  · rw [countP_map_eq_length _ _ _ (fun a => rfl)]
    exact List.length_range _
  · exact countP_map_eq_zero _ _ _ (fun a => rfl)
  · exact countP_map_eq_zero _ _ _ (fun a => rfl)
  · exact countP_map_eq_zero _ _ _ (fun a => rfl)

/-- The line noise consists of exactly `noiseLines` curves and nothing else. -/
theorem renderLines_counts (cfg : Config) (rnd : ℕ → ℚ) :
    (renderLines cfg rnd).countP isCurve = cfg.noiseLines ∧
    (renderLines cfg rnd).countP isCircle = 0 ∧
    (renderLines cfg rnd).countP isGlyphPath = 0 ∧
    (renderLines cfg rnd).countP isBgRect = 0 := by
  unfold renderLines
  refine ⟨?_, ?_, ?_, ?_⟩
  · rw [countP_map_eq_length _ _ _ (fun a => rfl)]
    exact List.length_range _
  · exact countP_map_eq_zero _ _ _ (fun a => rfl)
  · exact countP_map_eq_zero _ _ _ (fun a => rfl)
  · exact countP_map_eq_zero _ _ _ (fun a => rfl)

/-- The rendered text consists of exactly one glyph path per character and
nothing else. -/
theorem renderText_counts (cfg : Config) (font : Font) (text : String) :
    (renderText cfg font text).countP isGlyphPath = text.length ∧
    (renderText cfg font text).countP isCircle = 0 ∧
    (renderText cfg font text).countP isCurve = 0 ∧
    (renderText cfg font text).countP isBgRect = 0 := by
  unfold renderText
  refine ⟨?_, ?_, ?_, ?_⟩
  · rw [countP_map_eq_length _ _ _ (fun a => rfl)]
    exact List.length_range _
  · exact countP_map_eq_zero _ _ _ (fun a => rfl)
  · exact countP_map_eq_zero _ _ _ (fun a => rfl)
  · exact countP_map_eq_zero _ _ _ (fun a => rfl)

/-- C6: the generated document has the configured dimensions, starts with the
single background rectangle sized to the full canvas and filled with the
configured background color, contains exactly `noiseDots` circles,
`noiseLines` curves and one glyph path per character of the equation text,
and its non-background primitives are a permutation of the generated dot,
line and glyph primitives. -/
theorem generate_document_shape (cfg : Config) (font : Font) (rndD rndL : ℕ → ℚ)
    (r1 r2 : ℚ) (shuffle : List Prim → List Prim) (hs : ∀ l, (shuffle l).Perm l) :
    (generate cfg font rndD rndL r1 r2 shuffle).1.width = cfg.outputWidth ∧
    (generate cfg font rndD rndL r1 r2 shuffle).1.height = cfg.outputHeight ∧
    (generate cfg font rndD rndL r1 r2 shuffle).1.prims.head? =
      some (Prim.bgRect "100%" "100%" cfg.colorBackground) ∧
    (generate cfg font rndD rndL r1 r2 shuffle).1.prims.countP isBgRect = 1 ∧
    (generate cfg font rndD rndL r1 r2 shuffle).1.prims.countP isCircle = cfg.noiseDots ∧
    (generate cfg font rndD rndL r1 r2 shuffle).1.prims.countP isCurve = cfg.noiseLines ∧
    (generate cfg font rndD rndL r1 r2 shuffle).1.prims.countP isGlyphPath =
      (generateMathEquation cfg r1 r2).text.length ∧
    (generate cfg font rndD rndL r1 r2 shuffle).1.prims.tail.Perm
      (renderDots cfg rndD ++ renderLines cfg rndL ++
        renderText cfg font (generateMathEquation cfg r1 r2).text) := by
  have hperm := hs (renderDots cfg rndD ++ renderLines cfg rndL ++
    renderText cfg font (generateMathEquation cfg r1 r2).text)
  refine ⟨rfl, rfl, rfl, ?_, ?_, ?_, ?_, hperm⟩
  · show (Prim.bgRect "100%" "100%" cfg.colorBackground ::
      shuffle (renderDots cfg rndD ++ renderLines cfg rndL ++
        renderText cfg font (generateMathEquation cfg r1 r2).text)).countP isBgRect = 1
    rw [List.countP_cons, hperm.countP_eq, List.countP_append, List.countP_append,
      (renderDots_counts cfg rndD).2.2.2, (renderLines_counts cfg rndL).2.2.2,
      (renderText_counts cfg font _).2.2.2]
    simp [isBgRect]
  · show (Prim.bgRect "100%" "100%" cfg.colorBackground ::
      shuffle (renderDots cfg rndD ++ renderLines cfg rndL ++
        renderText cfg font (generateMathEquation cfg r1 r2).text)).countP isCircle =
      cfg.noiseDots
    rw [List.countP_cons, hperm.countP_eq, List.countP_append, List.countP_append,
      (renderDots_counts cfg rndD).1, (renderLines_counts cfg rndL).2.1,
      (renderText_counts cfg font _).2.1]
    simp [isCircle]
  · show (Prim.bgRect "100%" "100%" cfg.colorBackground ::
      shuffle (renderDots cfg rndD ++ renderLines cfg rndL ++
        renderText cfg font (generateMathEquation cfg r1 r2).text)).countP isCurve =
      cfg.noiseLines
    rw [List.countP_cons, hperm.countP_eq, List.countP_append, List.countP_append,
      (renderDots_counts cfg rndD).2.1, (renderLines_counts cfg rndL).1,
      (renderText_counts cfg font _).2.2.1]
    simp [isCurve]
  · show (Prim.bgRect "100%" "100%" cfg.colorBackground ::
      shuffle (renderDots cfg rndD ++ renderLines cfg rndL ++
        renderText cfg font (generateMathEquation cfg r1 r2).text)).countP isGlyphPath =
      (generateMathEquation cfg r1 r2).text.length
    rw [List.countP_cons, hperm.countP_eq, List.countP_append, List.countP_append,
      (renderDots_counts cfg rndD).2.2.1, (renderLines_counts cfg rndL).2.2.1,
      (renderText_counts cfg font _).1]
    simp [isGlyphPath]

/-- Concrete instance of C6 with small noise counts and the identity
shuffle. -/
theorem generate_document_shape_witness :
    (generate cfgSmall fontW (fun _ => 1 / 2) (fun _ => 1 / 2) (1 / 2) (1 / 2) id).1.width =
      cfgSmall.outputWidth ∧
    (generate cfgSmall fontW (fun _ => 1 / 2) (fun _ => 1 / 2) (1 / 2) (1 / 2) id).1.height =
      cfgSmall.outputHeight ∧
    (generate cfgSmall fontW (fun _ => 1 / 2) (fun _ => 1 / 2) (1 / 2) (1 / 2) id).1.prims.head? =
      some (Prim.bgRect "100%" "100%" cfgSmall.colorBackground) ∧
    (generate cfgSmall fontW (fun _ => 1 / 2) (fun _ => 1 / 2) (1 / 2) (1 / 2) id).1.prims.countP
      isBgRect = 1 ∧
    (generate cfgSmall fontW (fun _ => 1 / 2) (fun _ => 1 / 2) (1 / 2) (1 / 2) id).1.prims.countP
      isCircle = cfgSmall.noiseDots ∧
    (generate cfgSmall fontW (fun _ => 1 / 2) (fun _ => 1 / 2) (1 / 2) (1 / 2) id).1.prims.countP
      isCurve = cfgSmall.noiseLines ∧
    (generate cfgSmall fontW (fun _ => 1 / 2) (fun _ => 1 / 2) (1 / 2) (1 / 2) id).1.prims.countP
      isGlyphPath = (generateMathEquation cfgSmall (1 / 2) (1 / 2)).text.length ∧
    (generate cfgSmall fontW (fun _ => 1 / 2) (fun _ => 1 / 2) (1 / 2) (1 / 2) id).1.prims.tail.Perm
      (renderDots cfgSmall (fun _ => 1 / 2) ++ renderLines cfgSmall (fun _ => 1 / 2) ++
        renderText cfgSmall fontW (generateMathEquation cfgSmall (1 / 2) (1 / 2)).text) :=
  generate_document_shape cfgSmall fontW (fun _ => 1 / 2) (fun _ => 1 / 2) (1 / 2) (1 / 2) id
    (fun l => List.Perm.refl l)

/-! ## Claims about the glyph renderer -/

/-- C7: a character with no outline or no advance width in the font does not
break rendering: one glyph path is still emitted for it, it degrades to zero
advance width and sits at its slot center `(i + 1) * spacing` with
`spacing = (width - 2) / (characterCount + 1)`, and every character of the
text, this one included, is rendered by the position formula of its own slot
index only, so later characters are not disturbed. -/
theorem renderText_missing_glyph (cfg : Config) (font : Font) (text : String) (i : ℕ)
    (hi : i < text.length)
    (hmiss : (font.charToGlyph (text.data.getD i ' ')).advanceWidth = none ∨
      (font.charToGlyph (text.data.getD i ' ')).advanceWidth = some 0) :
    (renderText cfg font text).length = text.length ∧
    (∀ j, j < text.length →
      (renderText cfg font text).getD j (Prim.glyphPath "" "") =
        renderChar cfg font text.length j (text.data.getD j ' ')) ∧
    (renderText cfg font text).getD i (Prim.glyphPath "" "") =
      Prim.glyphPath cfg.colorForeground
        ((font.charToGlyph (text.data.getD i ' ')).getPath
          (((i : ℚ) + 1) * (((cfg.outputWidth : ℚ) - 2) / ((text.length : ℚ) + 1)))
          ((cfg.outputHeight : ℚ) / 2 +
            cfg.fontSize / font.unitsPerEm * (font.ascender + font.descender) / 2)
          cfg.fontSize) := by
  have hlen : (renderText cfg font text).length = text.length := by
    simp [renderText]
  have hget : ∀ j, j < text.length →
      (renderText cfg font text).getD j (Prim.glyphPath "" "") =
        renderChar cfg font text.length j (text.data.getD j ' ') := by
    intro j hj
    have hj' : j < (renderText cfg font text).length := by omega
    rw [List.getD_eq_getElem _ _ hj']
    simp [renderText]
  refine ⟨hlen, hget, ?_⟩
  rw [hget i hi]
  rcases hmiss with h | h <;>
    · simp only [renderChar, h]
      norm_num

/-- Concrete instance of C7: with a font that has no advance width for any
glyph, the first character of a two-character text is emitted at its slot
center. -/
theorem renderText_missing_glyph_witness :
    (renderText cfgW fontW "ab").length = ("ab" : String).length ∧
    (∀ j, j < ("ab" : String).length →
      (renderText cfgW fontW "ab").getD j (Prim.glyphPath "" "") =
        renderChar cfgW fontW ("ab" : String).length j (("ab" : String).data.getD j ' ')) ∧
    (renderText cfgW fontW "ab").getD 0 (Prim.glyphPath "" "") =
      Prim.glyphPath cfgW.colorForeground
        ((fontW.charToGlyph (("ab" : String).data.getD 0 ' ')).getPath
          ((((0 : ℕ) : ℚ) + 1) * (((cfgW.outputWidth : ℚ) - 2) / ((("ab" : String).length : ℚ) + 1)))
          ((cfgW.outputHeight : ℚ) / 2 +
            cfgW.fontSize / fontW.unitsPerEm * (fontW.ascender + fontW.descender) / 2)
          cfgW.fontSize) :=
  renderText_missing_glyph cfgW fontW "ab" 0 (by decide) (Or.inl rfl)

/-! ## Claims about font caching -/

/-- Closed form of a run of the engine: the cache holds the loaded font from
the first call on, the load flag is raised on the first call only, and every
call renders with the loaded font. -/
theorem runEngine_eq (cfg : Config) (loaded : Font) (crs : ℕ → CallRand) :
    ∀ n, runEngine cfg loaded crs n =
      ((if n = 0 then none else some loaded),
       (if n = 0 then ([] : List Bool) else true :: List.replicate (n - 1) false),
       (List.range n).map fun i =>
         generate cfg loaded (crs i).rndD (crs i).rndL (crs i).r1 (crs i).r2 (crs i).shuffle) := by
  intro n
  induction n with
  | zero => simp [runEngine]
  | succ m ih =>
    rw [runEngine, ih]
    cases m with
    | zero => simp [engineStep, List.range_succ]
    | succ k =>
      simp [engineStep, List.range_succ, List.replicate_succ']

/-- C9: over any sequence of `generate()` calls on one engine instance, the
font load runs exactly once, on the first call; every later call reuses the
cached font (the cache holds it from the first call on), and every call,
the first included, renders with the loaded font in hand. -/
theorem font_loaded_once (cfg : Config) (loaded : Font) (crs : ℕ → CallRand) (n : ℕ)
    (hn : 0 < n) :
    (runEngine cfg loaded crs n).1 = some loaded ∧
    (runEngine cfg loaded crs n).2.1 = true :: List.replicate (n - 1) false ∧
    (runEngine cfg loaded crs n).2.1.count true = 1 ∧
    (runEngine cfg loaded crs n).2.2 = (List.range n).map (fun i =>
      generate cfg loaded (crs i).rndD (crs i).rndL (crs i).r1 (crs i).r2 (crs i).shuffle) := by
  rw [runEngine_eq]
  have hne : ¬n = 0 := by omega
  refine ⟨by simp [hne], by simp [hne], ?_, by simp⟩
  simp [hne, List.count_replicate]

/-- Concrete instance of C9 over two calls. -/
theorem font_loaded_once_witness :
    (runEngine cfgW fontW crsW 2).1 = some fontW ∧
    (runEngine cfgW fontW crsW 2).2.1 = true :: List.replicate (2 - 1) false ∧
    (runEngine cfgW fontW crsW 2).2.1.count true = 1 ∧
    (runEngine cfgW fontW crsW 2).2.2 = (List.range 2).map (fun i =>
      generate cfgW fontW (crsW i).rndD (crsW i).rndL (crsW i).r1 (crsW i).r2 (crsW i).shuffle) :=
  font_loaded_once cfgW fontW crsW 2 (by decide)
